import Mathlib

/-!
Verification development for the fact-checker application (`src/app.py`).

The Python source is shallowly embedded: pure computations become Lean
functions, Python exceptions become `Except` error values, and the two
network providers (the language-completion provider and the search
provider) are passed in as functions from the request prompt/query to an
abstract outcome.  JSON values are modelled by an inductive `Json` type and
`json.loads` by an executable recursive-descent parser (subset: integer
numerals only, no `\u` escapes; both suffice for the control flow under
study, where unparseable text maps to the same parse-failure path as in
Python).
-/

set_option maxRecDepth 4096

namespace FCApp

/-- Whitespace as matched by Python's `str.strip()` and the regex class
`\s` (ASCII range). -/
def isWs (c : Char) : Bool :=
  c = ' ' || c = '\t' || c = '\n' || c = '\r' || c = '\x0b' || c = '\x0c'

/-- Drop trailing whitespace (the right half of `str.strip()`). -/
def dropTrailingWs (cs : List Char) : List Char :=
  (cs.reverse.dropWhile isWs).reverse

/-- Python `str.strip()` on a list of characters. -/
def stripWs (cs : List Char) : List Char :=
  dropTrailingWs (cs.dropWhile isWs)

/-- The literal `` ```json `` alternative of the fence-stripping regex. -/
def fenceJson : List Char := "```json".data

/-- The literal `` ``` `` closing part of the second regex alternative. -/
def ticks : List Char := "```".data

/-- Match of the first regex alternative `` ```json\s* `` at the current
position; returns the remainder after the match.  The trailing `\s*` is
greedy and nothing follows it in the alternative, so it always takes the
maximal whitespace run. -/
def matchAlt1 (cs : List Char) : Option (List Char) :=
  if cs.take 7 = fenceJson then some ((cs.drop 7).dropWhile isWs) else none

/-- Match of the second regex alternative `` \s*``` `` at the current
position.  Backtracking inside `\s*` is impossible: a shorter whitespace
run would leave a whitespace character where a backquote is required. -/
def matchAlt2 (cs : List Char) : Option (List Char) :=
  if (cs.dropWhile isWs).take 3 = ticks then some ((cs.dropWhile isWs).drop 3)
  else none

/-- Fuel-indexed scan of `re.sub(r'```json\s*|\s*```', '', ·)`: at each
position try the first alternative, then the second; on a match remove it
and continue after it, otherwise keep the character and move on.  Fuel is
structural so that the function reduces in the kernel; `fsub` supplies
sufficient fuel. -/
def fsubFuel : Nat → List Char → List Char
  | 0, _ => []
  | fuel + 1, cs =>
    match matchAlt1 cs with
    | some r => fsubFuel fuel r
    | none =>
      match matchAlt2 cs with
      | some r => fsubFuel fuel r
      | none =>
        match cs with
        | [] => []
        | c :: cs' => c :: fsubFuel fuel cs'

/-- `re.sub(r'```json\s*|\s*```', '', cs)`.  Every step of the scan either
consumes a nonempty match or one character, so `cs.length` fuel suffices. -/
def fsub (cs : List Char) : List Char := fsubFuel cs.length cs

/-- The response post-processing shared by `extract_claims` (line 73–74)
and `verify_claim` (line 145–146): `content.strip()`, then the fence
`re.sub`, then `.strip()` again. -/
def processResponse (s : String) : String :=
  String.mk (stripWs (fsub (stripWs s.data)))

/-- Wrapping a raw response in code-fence markers. -/
def wrapFence (s : String) : String := "```json\n" ++ s ++ "\n```"

/-! ## JSON values and `json.loads` -/

/-- JSON values as produced by `json.loads` (numbers restricted to
integers in this model). -/
inductive Json where
  | null
  | bool (b : Bool)
  | num (n : Int)
  | str (s : String)
  | arr (xs : List Json)
  | obj (fields : List (String × Json))

/-- Assignment `d[k] = v` on a Python dict represented as an association
list: replace in place if the key exists, else append. -/
def insertKey : List (String × Json) → String → Json → List (String × Json)
  | [], k, v => [(k, v)]
  | (k', v') :: rest, k, v =>
    if k' = k then (k', v) :: rest else (k', v') :: insertKey rest k v

/-- Python-dict semantics for a JSON object literal: later duplicate keys
overwrite earlier ones, keeping the first position. -/
def dedupPairs (ps : List (String × Json)) : List (String × Json) :=
  ps.foldl (fun acc kv => insertKey acc kv.1 kv.2) []

/-- JSON whitespace (`json.decoder`: space, tab, newline, carriage
return). -/
def isJWs (c : Char) : Bool := c = ' ' || c = '\t' || c = '\n' || c = '\r'

/-- Skip JSON whitespace. -/
def skipJWs (cs : List Char) : List Char := cs.dropWhile isJWs

/-- Decode one escape character after a backslash inside a JSON string
(`\u` escapes unsupported in this model). -/
def escChar (c : Char) : Option Char :=
  if c = '"' then some '"'
  else if c = '\\' then some '\\'
  else if c = '/' then some '/'
  else if c = 'n' then some '\n'
  else if c = 't' then some '\t'
  else if c = 'r' then some '\r'
  else if c = 'b' then some '\x08'
  else if c = 'f' then some '\x0c'
  else none

/-- Parse the body of a JSON string after the opening quote; strict mode:
raw control characters are invalid. -/
def parseStrBody : List Char → Option (List Char × List Char)
  | [] => none
  | c :: rest =>
    if c = '"' then some ([], rest)
    else if c = '\\' then
      match rest with
      | [] => none
      | e :: rest2 =>
        match escChar e with
        | none => none
        | some ch =>
          match parseStrBody rest2 with
          | none => none
          | some (s, r) => some (ch :: s, r)
    else if c.toNat < 32 then none
    else
      match parseStrBody rest with
      | none => none
      | some (s, r) => some (c :: s, r)

/-- Consume a maximal digit run, returning value, digit count and rest. -/
def digitsVal : List Char → Nat → Nat × Nat × List Char
  | [], acc => (acc, 0, [])
  | c :: rest, acc =>
    if c.isDigit then
      let (v, n, r) := digitsVal rest (acc * 10 + (c.toNat - 48))
      (v, n + 1, r)
    else (acc, 0, c :: rest)

/-- Parse a JSON integer numeral (optional minus sign, no leading zeros). -/
def parseNum (cs : List Char) : Option (Json × List Char) :=
  let sb : Bool × List Char :=
    match cs with
    | c :: rest => if c = '-' then (true, rest) else (false, cs)
    | [] => (false, cs)
  match sb.2 with
  | [] => none
  | c0 :: _ =>
    if c0.isDigit then
      let (v, n, r) := digitsVal sb.2 0
      if n = 0 then none
      else if c0 = '0' && n > 1 then none
      else some (Json.num (if sb.1 then -(v : Int) else (v : Int)), r)
    else none

mutual

/-- Parse one JSON value (after skipping leading whitespace). -/
def parseVal : Nat → List Char → Option (Json × List Char)
  | 0, _ => none
  | fuel + 1, cs =>
    match skipJWs cs with
    | 'n' :: 'u' :: 'l' :: 'l' :: rest => some (Json.null, rest)
    | 't' :: 'r' :: 'u' :: 'e' :: rest => some (Json.bool true, rest)
    | 'f' :: 'a' :: 'l' :: 's' :: 'e' :: rest => some (Json.bool false, rest)
    | '"' :: rest =>
      match parseStrBody rest with
      | some (s, r) => some (Json.str (String.mk s), r)
      | none => none
    | '[' :: rest =>
      match skipJWs rest with
      | ']' :: r => some (Json.arr [], r)
      | _ =>
        match parseArrItems fuel rest with
        | some (xs, r) => some (Json.arr xs, r)
        | none => none
    | '\x7b' :: rest =>
      match skipJWs rest with
      | '\x7d' :: r => some (Json.obj [], r)
      | _ =>
        match parseObjFields fuel rest with
        | some (fs, r) => some (Json.obj (dedupPairs fs), r)
        | none => none
    | c :: rest =>
      if c = '-' || c.isDigit then parseNum (c :: rest) else none
    | [] => none

/-- Parse array elements after `[`, up to and including `]`. -/
def parseArrItems : Nat → List Char → Option (List Json × List Char)
  | 0, _ => none
  | fuel + 1, cs =>
    match parseVal fuel cs with
    | none => none
    | some (v, r) =>
      match skipJWs r with
      | ',' :: r2 =>
        match parseArrItems fuel r2 with
        | some (vs, r3) => some (v :: vs, r3)
        | none => none
      | ']' :: r2 => some ([v], r2)
      | _ => none

/-- Parse object members after `{`, up to and including `}`. -/
def parseObjFields : Nat → List Char → Option (List (String × Json) × List Char)
  | 0, _ => none
  | fuel + 1, cs =>
    match skipJWs cs with
    | '"' :: rest =>
      match parseStrBody rest with
      | none => none
      | some (k, r) =>
        match skipJWs r with
        | ':' :: r2 =>
          match parseVal fuel r2 with
          | none => none
          | some (v, r3) =>
            match skipJWs r3 with
            | ',' :: r4 =>
              match parseObjFields fuel r4 with
              | some (fs, r5) => some ((String.mk k, v) :: fs, r5)
              | none => none
            | '\x7d' :: r4 => some ([(String.mk k, v)], r4)
            | _ => none
        | _ => none
    | _ => none

end

/-- `json.loads`: parse a complete JSON document; anything but whitespace
after the value is an error.  Fuel `2·length + 4` is sufficient: along any
path of the recursion at least one character is consumed per two calls. -/
def parseJson (s : String) : Option Json :=
  let cs := s.data
  match parseVal (2 * cs.length + 4) cs with
  | some (j, rest) => if skipJWs rest = [] then some j else none
  | none => none

/-! ## Providers, Python runtime values, and errors -/

/-- Failure classes of the completion provider (taxonomy of §7 of the
design: rate-limited, transient network, fatal). -/
inductive ProviderFault where
  | rateLimited
  | transientNetwork
  | fatalProvider
deriving DecidableEq

/-- Outcome of one `client.chat.completions.create(...)` call: either the
response message content, or an exception raised by the SDK. -/
inductive CompletionOutcome where
  | success (text : String)
  | fault (f : ProviderFault)

/-- Outcome of one `tavily.search(...)` call. -/
inductive SearchOutcome where
  | ok (response : Json)
  | err (msg : String)

/-- Python exceptions that can escape the embedded functions.  A
`provider` fault is an SDK exception propagating uncaught; the others are
runtime errors of the surrounding Python code. -/
inductive PyError where
  | provider (f : ProviderFault)
  | typeError
  | keyError (k : String)
deriving DecidableEq

/-- A Python dict with string keys, as built by `{**claim, **verification}`. -/
abbrev PyDict := List (String × Json)

/-- Python `str(...)`/f-string rendering of a JSON value (rendering of
nested containers abridged; never forced by any theorem below). -/
def pyFormat : Json → String
  | Json.str s => s
  | Json.num n => toString n
  | Json.bool true => "True"
  | Json.bool false => "False"
  | Json.null => "None"
  | Json.arr _ => "[...]"
  | Json.obj _ => "\x7b...\x7d"

/-- Python subscription `j[k]`: `KeyError` on a missing dict key,
`TypeError` when `j` is not a mapping. -/
def pyIndex (j : Json) (k : String) : Except PyError Json :=
  match j with
  | Json.obj fs =>
    match List.lookup k fs with
    | some v => Except.ok v
    | none => Except.error (PyError.keyError k)
  | _ => Except.error PyError.typeError

/-- Python `j.get(k, d)`: only dicts have `.get`; anything else raises
`AttributeError` (collapsed into `typeError` here). -/
def pyGetD (j : Json) (k : String) (d : Json) : Except PyError Json :=
  match j with
  | Json.obj fs => Except.ok ((List.lookup k fs).getD d)
  | _ => Except.error PyError.typeError

/-- Python slice `v[:n]`: defined on strings and lists, `TypeError`
otherwise. -/
def pySlice (j : Json) (n : Nat) : Except PyError Json :=
  match j with
  | Json.str s => Except.ok (Json.str (String.mk (s.data.take n)))
  | Json.arr xs => Except.ok (Json.arr (xs.take n))
  | _ => Except.error PyError.typeError

/-- Python iteration over a value: lists yield elements, strings yield
one-character strings, dicts yield their keys; otherwise `TypeError`. -/
def pyIterate (j : Json) : Except PyError (List Json) :=
  match j with
  | Json.arr xs => Except.ok xs
  | Json.str s => Except.ok (s.data.map (fun c => Json.str (String.mk [c])))
  | Json.obj fs => Except.ok (fs.map (fun kv => Json.str kv.1))
  | _ => Except.error PyError.typeError

/-- Python truthiness (`if not claims:`). -/
def jsonTruthy : Json → Bool
  | Json.arr xs => !xs.isEmpty
  | Json.obj fs => !fs.isEmpty
  | Json.str s => !s.data.isEmpty
  | Json.num n => n != 0
  | Json.bool b => b
  | Json.null => false

/-- Substring test (Python `needle in hay` on strings). -/
def containsSub : List Char → List Char → Bool
  | hay, needle =>
    if needle.isPrefixOf hay then true
    else
      match hay with
      | [] => false
      | _ :: t => containsSub t needle

/-! ## `extract_claims` (src/app.py lines 40–82) -/

/-- The extraction prompt up to the final `Document:` line (the f-string
of lines 41–63, with `{{`/`}}` rendered as literal braces). -/
def extractPromptHeader : String :=
  "Analyze this document and extract ALL verifiable factual claims. Focus on:\n- Statistics and percentages (e.g., \"grew by 25%\", \"unemployment at 3.5%\")\n- Dates and timeframes (e.g., \"in 2023\", \"Q4 2024\")\n- Financial figures (revenue, costs, stock prices, GDP, market cap)\n- Technical specifications (speeds, capacities, dimensions)\n- Market data and rankings\n- Growth rates and comparisons\n\nFor each claim, extract:\n1. The exact claim text (verbatim quote)\n2. The type: statistic|date|financial|technical|comparison\n3. Brief context for verification\n\nReturn ONLY valid JSON array, no markdown:\n[\n  \x7b\n    \"claim\": \"exact quoted text from document\",\n    \"type\": \"statistic|date|financial|technical|comparison\",\n    \"context\": \"what this claim is about\"\n  \x7d\n]\n\nDocument:\n"

/-- The full extraction prompt: header plus `text[:8000]`. -/
def extractPrompt (text : String) : String :=
  extractPromptHeader ++ String.mk (text.data.take 8000)

/-- `extract_claims(text, client)`: one completion call (no retry, no
try/except around it — an SDK exception propagates), strip code fences,
`json.loads`; only `json.JSONDecodeError` is caught, yielding `[]`.  The
parsed value is returned as-is: no schema validation, no filtering. -/
def extract_claims (text : String) (client : String → CompletionOutcome) :
    Except PyError Json :=
  match client (extractPrompt text) with
  | CompletionOutcome.fault f => Except.error (PyError.provider f)
  | CompletionOutcome.success content =>
    match parseJson (processResponse content) with
    | some claims => Except.ok claims
    | none => Except.ok (Json.arr [])

/-! ## `search_claim` (src/app.py lines 84–91) -/

/-- `search_claim(claim_text, context, tavily)`: build the query by an
f-string, one provider call inside `try`, return
`response.get('results', [])`; `except Exception` catches everything
(including a non-dict response) and returns `[]` after `st.warning`. -/
def search_claim (claim_text context : Json) (tavily : String → SearchOutcome) :
    Json :=
  match tavily (pyFormat claim_text ++ " " ++ pyFormat context) with
  | SearchOutcome.err _ => Json.arr []
  | SearchOutcome.ok response =>
    match response with
    | Json.obj fs => (List.lookup "results" fs).getD (Json.arr [])
    | _ => Json.arr []

/-! ## `verify_claim` (src/app.py lines 93–160) -/

/-- One evidence block of `results_text` (line 94–97):
`Source: {r.get('url', 'N/A')}\nTitle: {r.get('title', 'N/A')}\nContent:
{r.get('content', 'N/A')[:500]}`. -/
def snippetOf (r : Json) : Except PyError String :=
  match pyGetD r "url" (Json.str "N/A") with
  | Except.error e => Except.error e
  | Except.ok url =>
    match pyGetD r "title" (Json.str "N/A") with
    | Except.error e => Except.error e
    | Except.ok title =>
      match pyGetD r "content" (Json.str "N/A") with
      | Except.error e => Except.error e
      | Except.ok contentRaw =>
        match pySlice contentRaw 500 with
        | Except.error e => Except.error e
        | Except.ok content =>
          Except.ok ("Source: " ++ pyFormat url ++ "\nTitle: " ++
            pyFormat title ++ "\nContent: " ++ pyFormat content)

/-- Snippets for every item of the (sliced) result list. -/
def snippetsOf : List Json → Except PyError (List String)
  | [] => Except.ok []
  | r :: rest =>
    match snippetOf r with
    | Except.error e => Except.error e
    | Except.ok s =>
      match snippetsOf rest with
      | Except.error e => Except.error e
      | Except.ok ss => Except.ok (s :: ss)

/-- Python `sep.join(items)`. -/
def joinSep (sep : String) : List String → String
  | [] => ""
  | [x] => x
  | x :: xs => x ++ sep ++ joinSep sep xs

/-- `results_text` (line 94): snippets of `search_results[:5]` joined by
blank lines. -/
def resultsTextOf (search_results : Json) : Except PyError String :=
  match pySlice search_results 5 with
  | Except.error e => Except.error e
  | Except.ok top =>
    match pyIterate top with
    | Except.error e => Except.error e
    | Except.ok items =>
      match snippetsOf items with
      | Except.error e => Except.error e
      | Except.ok snips => Except.ok (joinSep "\n\n" snips)

/-- Verification prompt, fixed text between `CLAIM:` placeholders. -/
def verifyPromptA : String := "Verify this claim against current web data:\n\nCLAIM: \""

/-- Verification prompt, between the claim text and the type. -/
def verifyPromptB : String := "\"\nTYPE: "

/-- Verification prompt, between the type and the context. -/
def verifyPromptC : String := "\nCONTEXT: "

/-- Verification prompt, between the context and the search results. -/
def verifyPromptD : String := "\n\nSEARCH RESULTS:\n"

/-- Verification prompt, fixed tail after the search results (lines
108–136 of the f-string, `{{`/`}}` as literal braces). -/
def verifyPromptE : String :=
  "\n\nCRITICAL INSTRUCTIONS:\n- VERIFIED: Use ONLY if the exact claim matches current, authoritative sources (within reasonable margins)\n- INACCURATE: Use if the claim WAS true but is now outdated (old prices, old stats, old dates that have changed)\n- FALSE: Use if the claim is fabricated, never was true, or is completely contradicted by all sources\n\nIMPORTANT DISTINCTIONS:\n- A product that existed but has updated specs = INACCURATE (not FALSE)\n- A statistic that was true in the past but changed = INACCURATE\n- A claim about something that NEVER existed or happened = FALSE\n- A number that\x27s completely wrong and never was accurate = FALSE\n\nExamples:\n- \"Tesla stock was $200 in 2023\" but now it\x27s $250 = INACCURATE (price changed)\n- \"GPT-5 was released in 2024\" but GPT-5 doesn\x27t exist = FALSE (fabricated)\n- \"Bitcoin hit $150,000\" but it never reached that = FALSE (never happened)\n- \"iPhone 15 costs $799\" and it does = VERIFIED\n\nFor financial/statistical claims, check if numbers match current OR historical data.\nIf a claim was accurate in the past but outdated now = INACCURATE (with current figures).\nIf a claim was NEVER accurate = FALSE.\n\nReturn ONLY valid JSON, no markdown:\n\x7b\n  \"status\": \"verified|inaccurate|false\",\n  \"explanation\": \"Clear explanation with specifics (e.g., \x27Claim says $150K but Bitcoin never exceeded $69K\x27)\",\n  \"correct_info\": \"Current accurate information with numbers\",\n  \"confidence\": \"high|medium|low\",\n  \"sources\": [\"url1\", \"url2\"]\n\x7d"

/-- The verification prompt of lines 94–136: `results_text` is built
first, then the f-string interpolates `claim['claim']`, `claim['type']`,
`claim['context']` in order (each access can raise). -/
def mkVerifyPrompt (claim : Json) (search_results : Json) :
    Except PyError String :=
  match resultsTextOf search_results with
  | Except.error e => Except.error e
  | Except.ok results_text =>
    match pyIndex claim "claim" with
    | Except.error e => Except.error e
    | Except.ok cv =>
      match pyIndex claim "type" with
      | Except.error e => Except.error e
      | Except.ok tv =>
        match pyIndex claim "context" with
        | Except.error e => Except.error e
        | Except.ok xv =>
          Except.ok (verifyPromptA ++ pyFormat cv ++ verifyPromptB ++
            pyFormat tv ++ verifyPromptC ++ pyFormat xv ++ verifyPromptD ++
            results_text ++ verifyPromptE)

/-- The fallback verdict returned on `json.JSONDecodeError`
(lines 153–160). -/
def errorVerdict : Json :=
  Json.obj [("status", Json.str "error"),
            ("explanation", Json.str "Could not verify claim"),
            ("correct_info", Json.str ""),
            ("confidence", Json.str "low"),
            ("sources", Json.arr [])]

/-- Lines 150–152: `if 'confidence' not in result: result['confidence'] =
'medium'; return result`.  For a dict this is key membership plus
assignment; for a list or string, `in` is element/substring containment
and the assignment raises `TypeError`; `in` itself raises on other
types.  These `TypeError`s are not `json.JSONDecodeError` and escape the
`try`. -/
def confidencePost (result : Json) : Except PyError Json :=
  match result with
  | Json.obj fs =>
    match List.lookup "confidence" fs with
    | some _ => Except.ok (Json.obj fs)
    | none => Except.ok (Json.obj (fs ++ [("confidence", Json.str "medium")]))
  | Json.arr xs =>
    if xs.any (fun v => match v with
        | Json.str s => s == "confidence"
        | _ => false)
    then Except.ok (Json.arr xs) else Except.error PyError.typeError
  | Json.str s =>
    if containsSub s.data "confidence".data then Except.ok (Json.str s)
    else Except.error PyError.typeError
  | _ => Except.error PyError.typeError

/-- `verify_claim(claim, search_results, client)`: build the prompt, one
completion call (no retry; SDK exceptions propagate), strip fences, parse;
only `json.JSONDecodeError` is caught, yielding the fixed error verdict.
On success the parsed value is returned with only the missing-confidence
default applied — `status` is never inspected and `sources` never
defaulted. -/
def verify_claim (claim : Json) (search_results : Json)
    (client : String → CompletionOutcome) : Except PyError Json :=
  match mkVerifyPrompt claim search_results with
  | Except.error e => Except.error e
  | Except.ok prompt =>
    match client prompt with
    | CompletionOutcome.fault f => Except.error (PyError.provider f)
    | CompletionOutcome.success content =>
      match parseJson (processResponse content) with
      | none => Except.ok errorVerdict
      | some result => confidencePost result

/-! ## `process_single_pdf` (src/app.py lines 298–324) -/

/-- `{**claim, **verification}` (line 318): both operands must be
mappings; keys of `verification` override those of `claim`. -/
def pyMergeDicts : Json → Json → Except PyError PyDict
  | Json.obj fs, Json.obj gs =>
    Except.ok (gs.foldl (fun acc kv => insertKey acc kv.1 kv.2) fs)
  | _, _ => Except.error PyError.typeError

/-- The per-claim loop of lines 312–319.  Each iteration: the progress
f-string evaluates `claim['claim'][:60]` (index then slice, both can
raise), then one `search_claim` call, then one `verify_claim` call, then
the dict merge.  Returns the result list together with the number of
search calls and of verification calls performed. -/
def verifyClaimsLoop (claims : List Json)
    (client : String → CompletionOutcome) (tavily : String → SearchOutcome) :
    Except PyError (List PyDict × Nat × Nat) :=
  match claims with
  | [] => Except.ok ([], 0, 0)
  | claim :: rest =>
    match pyIndex claim "claim" with
    | Except.error e => Except.error e
    | Except.ok cv =>
      match pySlice cv 60 with
      | Except.error e => Except.error e
      | Except.ok _ =>
        match pyIndex claim "context" with
        | Except.error e => Except.error e
        | Except.ok xv =>
          let search_results := search_claim cv xv tavily
          match verify_claim claim search_results client with
          | Except.error e => Except.error e
          | Except.ok verification =>
            match pyMergeDicts claim verification with
            | Except.error e => Except.error e
            | Except.ok merged =>
              match verifyClaimsLoop rest client tavily with
              | Except.error e => Except.error e
              | Except.ok (rs, s, v) => Except.ok (merged :: rs, s + 1, v + 1)

/-- `process_single_pdf`: extract claims once; `if not claims: return
None, None` before any search or verification; otherwise iterate the
claims (a truthy non-list iterates per Python semantics).  The result
carries the `(text, results)` pair plus the number of search and of
verification calls made. -/
def process_single_pdf (text : String)
    (client : String → CompletionOutcome) (tavily : String → SearchOutcome) :
    Except PyError ((Option String × Option (List PyDict)) × Nat × Nat) :=
  match extract_claims text client with
  | Except.error e => Except.error e
  | Except.ok claims =>
    if jsonTruthy claims = false then Except.ok ((none, none), 0, 0)
    else
      match pyIterate claims with
      | Except.error e => Except.error e
      | Except.ok items =>
        match verifyClaimsLoop items client tavily with
        | Except.error e => Except.error e
        | Except.ok (results, s, v) =>
          Except.ok ((some text, some results), s, v)

/-! ## Result aggregation (src/app.py lines 190–228 and 329–351)

`display_results` and `create_pdf_report` both compute
`verified = sum(1 for r in results if r.get('status') == 'verified')`
(and likewise for `inaccurate` / `false`), the accuracy rate
`verified / len(results) * 100` guarded by `len(results) > 0`, and the
same four assessment branches.  Exact rational arithmetic stands in for
Python floats; every comparison used below is exact in both. -/

/-- `r.get('status') == s` for one result dict. -/
def statusIs (r : PyDict) (s : String) : Bool :=
  match List.lookup "status" r with
  | some (Json.str t) => t == s
  | _ => false

/-- `sum(1 for r in results if r.get('status') == s)`. -/
def statusCount (results : List PyDict) (s : String) : Nat :=
  results.countP (fun r => statusIs r s)

/-- `len(results)`, the `Total Claims` metric. -/
def totalClaims (results : List PyDict) : Nat := results.length

/-- `accuracy_rate = (verified / len(results) * 100) if len(results) > 0
else 0` (lines 218 and 339). -/
def accuracy_rate (results : List PyDict) : Rat :=
  if 0 < results.length then
    (statusCount results "verified" : Rat) / (results.length : Rat) * 100
  else 0

/-- The four assessment tiers of lines 219–226 / 344–351. -/
inductive Assessment where
  | critical
  | multipleIssues
  | someIssues
  | good
deriving DecidableEq

/-- The assessment branch taken from the accuracy rate: `< 20` critical,
`< 50` multiple issues, `< 80` some issues, else good. -/
def assessment (results : List PyDict) : Assessment :=
  if accuracy_rate results < 20 then Assessment.critical
  else if accuracy_rate results < 50 then Assessment.multipleIssues
  else if accuracy_rate results < 80 then Assessment.someIssues
  else Assessment.good

/-! ## Projections used to state concrete facts without decidable
equality on `Json` -/

/-- The `status` field of a successful verdict object. -/
def statusOf (r : Except PyError Json) : Option String :=
  match r with
  | Except.ok (Json.obj fs) =>
    match List.lookup "status" fs with
    | some (Json.str s) => some s
    | _ => none
  | _ => none

/-- The `sources` field of a successful verdict object. -/
def sourcesOf (r : Except PyError Json) : Option Json :=
  match r with
  | Except.ok (Json.obj fs) => List.lookup "sources" fs
  | _ => none

/-- The `confidence` field of a successful verdict object. -/
def confidenceOf (r : Except PyError Json) : Option String :=
  match r with
  | Except.ok (Json.obj fs) =>
    match List.lookup "confidence" fs with
    | some (Json.str s) => some s
    | _ => none
  | _ => none

/-- Number of entries of a successful array result. -/
def arrLenOf (r : Except PyError Json) : Option Nat :=
  match r with
  | Except.ok (Json.arr xs) => some xs.length
  | _ => none

/-! ## Concrete inputs used by counterexamples and witnesses -/

/-- A well-formed extracted claim, as `extract_claims` would produce. -/
def jClaim : Json :=
  Json.obj [("claim", Json.str "Bitcoin reached $150,000"),
            ("type", Json.str "financial"),
            ("context", Json.str "cryptocurrency prices")]

/-- A nonempty, well-formed search-result list with one evidence item. -/
def evList : Json :=
  Json.arr [Json.obj [("url", Json.str "https://example.com/a"),
                      ("title", Json.str "Example"),
                      ("content", Json.str "Some evidence text")]]

end FCApp

-- ======================================================================
-- Lemmas
-- ======================================================================

namespace FCApp

/-! ### The fence-stripping scan -/

lemma fsub_nil : fsub [] = [] := rfl

lemma fsubFuel_nil : ∀ f, fsubFuel f [] = []
  | 0 => rfl
  | _ + 1 => rfl

lemma matchAlt1_take (h : matchAlt1 cs = some r) : cs.take 7 = fenceJson := by
  unfold matchAlt1 at h
  split at h
  · assumption
  · exact Option.noConfusion h

lemma matchAlt1_rest (h : matchAlt1 cs = some r) :
    r = (cs.drop 7).dropWhile isWs := by
  unfold matchAlt1 at h
  split at h
  · exact (Option.some.injEq _ _ ▸ h).symm
  · exact Option.noConfusion h

lemma matchAlt1_seven (h : matchAlt1 cs = some r) : 7 ≤ cs.length := by
  have ht := matchAlt1_take h
  have hlen := congrArg List.length ht
  have hf : fenceJson.length = 7 := rfl
  rw [List.length_take, hf] at hlen
  omega

lemma matchAlt1_length (h : matchAlt1 cs = some r) : r.length < cs.length := by
  have h7 := matchAlt1_seven h
  have hr := matchAlt1_rest h
  have hle : r.length ≤ (cs.drop 7).length := by
    rw [hr]; exact (List.dropWhile_suffix isWs).sublist.length_le
  rw [List.length_drop] at hle
  omega

lemma matchAlt2_take (h : matchAlt2 cs = some r) :
    (cs.dropWhile isWs).take 3 = ticks := by
  unfold matchAlt2 at h
  split at h
  · assumption
  · exact Option.noConfusion h

lemma matchAlt2_rest (h : matchAlt2 cs = some r) :
    r = (cs.dropWhile isWs).drop 3 := by
  unfold matchAlt2 at h
  split at h
  · exact (Option.some.injEq _ _ ▸ h).symm
  · exact Option.noConfusion h

lemma matchAlt2_three (h : matchAlt2 cs = some r) :
    3 ≤ (cs.dropWhile isWs).length := by
  have ht := matchAlt2_take h
  have hlen := congrArg List.length ht
  have hf : ticks.length = 3 := rfl
  rw [List.length_take, hf] at hlen
  omega

lemma matchAlt2_length (h : matchAlt2 cs = some r) : r.length < cs.length := by
  have h3 := matchAlt2_three h
  have hr := matchAlt2_rest h
  have hdw : (cs.dropWhile isWs).length ≤ cs.length :=
    (List.dropWhile_suffix isWs).sublist.length_le
  have : r.length = (cs.dropWhile isWs).length - 3 := by
    rw [hr, List.length_drop]
  omega

lemma fsubFuel_congr : ∀ (f₁ f₂ : Nat) (cs : List Char),
    cs.length ≤ f₁ → cs.length ≤ f₂ → fsubFuel f₁ cs = fsubFuel f₂ cs := by
  intro f₁
  induction f₁ with
  | zero =>
    intro f₂ cs h1 _
    have : cs = [] := List.eq_nil_of_length_eq_zero (Nat.le_zero.mp h1)
    subst this
    rw [fsubFuel_nil, fsubFuel_nil]
  | succ n ih =>
    intro f₂ cs h1 h2
    cases f₂ with
    | zero =>
      have : cs = [] := List.eq_nil_of_length_eq_zero (Nat.le_zero.mp h2)
      subst this
      rw [fsubFuel_nil, fsubFuel_nil]
    | succ m =>
      cases cs with
      | nil => rw [fsubFuel_nil, fsubFuel_nil]
      | cons c cs' =>
        simp only [fsubFuel]
        cases hA1 : matchAlt1 (c :: cs') with
        | some r =>
          have hl := matchAlt1_length hA1
          simp only [List.length_cons] at h1 h2 hl
          exact ih m r (by omega) (by omega)
        | none =>
          cases hA2 : matchAlt2 (c :: cs') with
          | some r =>
            have hl := matchAlt2_length hA2
            simp only [List.length_cons] at h1 h2 hl
            exact ih m r (by omega) (by omega)
          | none =>
            simp only [List.length_cons] at h1 h2
            rw [ih m cs' (by omega) (by omega)]

lemma fsub_alt1 (h : matchAlt1 cs = some r) : fsub cs = fsub r := by
  have hl := matchAlt1_length h
  obtain ⟨k, hk⟩ : ∃ k, cs.length = k + 1 := ⟨cs.length - 1, by omega⟩
  unfold fsub
  rw [hk]
  simp only [fsubFuel, h]
  exact fsubFuel_congr k r.length r (by omega) (le_refl _)

lemma fsub_alt2 (h1 : matchAlt1 cs = none) (h2 : matchAlt2 cs = some r) :
    fsub cs = fsub r := by
  have hl := matchAlt2_length h2
  obtain ⟨k, hk⟩ : ∃ k, cs.length = k + 1 := ⟨cs.length - 1, by omega⟩
  unfold fsub
  rw [hk]
  simp only [fsubFuel, h1, h2]
  exact fsubFuel_congr k r.length r (by omega) (le_refl _)

lemma fsub_cons (h1 : matchAlt1 (c :: cs') = none)
    (h2 : matchAlt2 (c :: cs') = none) : fsub (c :: cs') = c :: fsub cs' := by
  unfold fsub
  simp only [List.length_cons, fsubFuel, h1, h2]

lemma matchAlt1_eq_none_iff : matchAlt1 cs = none ↔ cs.take 7 ≠ fenceJson := by
  unfold matchAlt1
  split <;> simp_all

lemma matchAlt2_eq_none_iff :
    matchAlt2 cs = none ↔ (cs.dropWhile isWs).take 3 ≠ ticks := by
  unfold matchAlt2
  split <;> simp_all

lemma head?_take_pos {ds : List Char} {w₀ : Char} {k : Nat}
    (hd : ds.head? = some w₀) (hk : 1 ≤ k) : w₀ ∈ ds.take k := by
  cases ds with
  | nil => exact Option.noConfusion hd
  | cons a t =>
    have ha : a = w₀ := by
      have : some a = some w₀ := hd
      exact Option.some.inj this
    subst ha
    obtain ⟨k', rfl⟩ : ∃ k', k = k' + 1 := ⟨k - 1, by omega⟩
    rw [List.take_succ_cons]
    exact List.mem_cons_self a _

/-- A pattern made of non-whitespace characters that fails to match as a
prefix of `cs` still fails on `cs ++ ds` when `ds` starts with
whitespace. -/
lemma take_append_ne {pat cs ds : List Char} {w₀ : Char}
    (hpat : ∀ c ∈ pat, isWs c = false) (h : cs.take pat.length ≠ pat)
    (hd : ds.head? = some w₀) (hw : isWs w₀ = true) :
    (cs ++ ds).take pat.length ≠ pat := by
  intro heq
  rcases le_or_lt pat.length cs.length with hle | hlt
  · rw [List.take_append_of_le_length hle] at heq
    exact h heq
  · rw [List.take_append_eq_append_take,
      List.take_of_length_le (le_of_lt hlt)] at heq
    have hmem : w₀ ∈ ds.take (pat.length - cs.length) :=
      head?_take_pos hd (by omega)
    have : w₀ ∈ pat := by
      rw [← heq]
      exact List.mem_append_right _ hmem
    have := hpat w₀ this
    rw [hw] at this
    exact Bool.noConfusion this

lemma fenceJson_not_ws : ∀ c ∈ fenceJson, isWs c = false := by decide

lemma ticks_not_ws : ∀ c ∈ ticks, isWs c = false := by decide

lemma matchAlt1_append_none {cs ds : List Char} {w₀ : Char}
    (h : matchAlt1 cs = none) (hd : ds.head? = some w₀)
    (hw : isWs w₀ = true) : matchAlt1 (cs ++ ds) = none := by
  rw [matchAlt1_eq_none_iff] at h ⊢
  have hf : fenceJson.length = 7 := rfl
  have := take_append_ne fenceJson_not_ws (by rw [hf]; exact h) hd hw
  rw [hf] at this
  exact this

lemma matchAlt1_some_append {cs r : List Char} (ds : List Char)
    (h : matchAlt1 cs = some r) (hr : r ≠ []) :
    matchAlt1 (cs ++ ds) = some (r ++ ds) := by
  have h7 := matchAlt1_seven h
  have ht := matchAlt1_take h
  have hrest := matchAlt1_rest h
  unfold matchAlt1
  rw [if_pos (by rw [List.take_append_of_le_length h7]; exact ht)]
  rw [List.drop_append_of_le_length h7]
  rw [List.dropWhile_append]
  rw [← hrest]
  simp [hr]

lemma matchAlt1_some_nil_append {cs : List Char} (ds : List Char)
    (h : matchAlt1 cs = some []) :
    matchAlt1 (cs ++ ds) = some (ds.dropWhile isWs) := by
  have h7 := matchAlt1_seven h
  have ht := matchAlt1_take h
  have hrest := matchAlt1_rest h
  unfold matchAlt1
  rw [if_pos (by rw [List.take_append_of_le_length h7]; exact ht)]
  rw [List.drop_append_of_le_length h7]
  rw [List.dropWhile_append]
  rw [← hrest]
  simp

lemma matchAlt2_some_append {cs r : List Char} (ds : List Char)
    (h : matchAlt2 cs = some r) : matchAlt2 (cs ++ ds) = some (r ++ ds) := by
  have h3 := matchAlt2_three h
  have ht := matchAlt2_take h
  have hrest := matchAlt2_rest h
  have hdw : cs.dropWhile isWs ≠ [] := by
    intro hnil
    rw [hnil] at h3
    simp at h3
  have hdwa : (cs ++ ds).dropWhile isWs = cs.dropWhile isWs ++ ds := by
    rw [List.dropWhile_append, if_neg (by simp [hdw])]
  unfold matchAlt2
  rw [hdwa]
  rw [if_pos (by rw [List.take_append_of_le_length h3]; exact ht)]
  rw [List.drop_append_of_le_length h3, hrest]

lemma matchAlt2_none_append {cs ds : List Char} {w₀ : Char}
    (h : matchAlt2 cs = none) (hdw : cs.dropWhile isWs ≠ [])
    (hd : ds.head? = some w₀) (hw : isWs w₀ = true) :
    matchAlt2 (cs ++ ds) = none := by
  rw [matchAlt2_eq_none_iff] at h ⊢
  rw [List.dropWhile_append, if_neg (by simp [hdw])]
  have hf : ticks.length = 3 := rfl
  have h' : (cs.dropWhile isWs).take ticks.length ≠ ticks := by
    rw [hf]; exact h
  have := take_append_ne ticks_not_ws h' hd hw
  rw [hf] at this
  exact this

/-! ### Whitespace tails and suffixes -/

lemma head?_dropWhile_not (p : Char → Bool) :
    ∀ (l : List Char) (c : Char), (l.dropWhile p).head? = some c → p c = false := by
  intro l
  induction l with
  | nil => intro c h; exact Option.noConfusion h
  | cons a t ih =>
    intro c h
    rw [List.dropWhile_cons] at h
    split at h
    · exact ih c h
    · next hpa =>
      have : a = c := Option.some.inj h
      subst this
      exact Bool.of_not_eq_true hpa

lemma reverse_head?_of_suffix {l₁ l₂ : List Char} (hs : l₁ <:+ l₂)
    (hne : l₁ ≠ []) : l₂.reverse.head? = l₁.reverse.head? := by
  obtain ⟨t, rfl⟩ := hs
  rw [List.reverse_append]
  cases hr : l₁.reverse with
  | nil => exact absurd (List.reverse_eq_nil_iff.mp hr) hne
  | cons a s => rfl

lemma endsNonWs_of_suffix {a b : List Char} (hs : a <:+ b)
    (hb : ∀ c, b.reverse.head? = some c → isWs c = false) :
    ∀ c, a.reverse.head? = some c → isWs c = false := by
  intro c hc
  rcases eq_or_ne a [] with rfl | hne
  · exact Option.noConfusion hc
  · exact hb c ((reverse_head?_of_suffix hs hne).trans hc)

lemma dropWhile_ne_nil_of_endsNonWs {v : List Char} (hvne : v ≠ [])
    (hv : ∀ c, v.reverse.head? = some c → isWs c = false) :
    v.dropWhile isWs ≠ [] := by
  intro hnil
  have hall := List.dropWhile_eq_nil_iff.mp hnil
  cases hr : v.reverse with
  | nil => exact hvne (List.reverse_eq_nil_iff.mp hr)
  | cons a t =>
    have ha := hv a (by rw [hr]; rfl)
    have hmem : a ∈ v := by
      rw [← List.mem_reverse, hr]
      exact List.mem_cons_self a t
    have := hall a hmem
    rw [ha] at this
    exact Bool.noConfusion this

lemma dropWhile_allWs_ticks {w : List Char} (hw : ∀ c ∈ w, isWs c = true) :
    (w ++ ticks).dropWhile isWs = ticks := by
  rw [List.dropWhile_append_of_pos hw]
  rfl

lemma fsub_ticks : fsub ticks = [] := rfl

/-- An all-whitespace run followed by `` ``` `` is consumed entirely by
the second regex alternative. -/
lemma fsub_allWs_ticks {w : List Char} (hw : ∀ c ∈ w, isWs c = true) :
    fsub (w ++ ticks) = [] := by
  have hdw := dropWhile_allWs_ticks hw
  have h2 : matchAlt2 (w ++ ticks) = some [] := by
    unfold matchAlt2
    rw [hdw]
    decide
  have h1 : matchAlt1 (w ++ ticks) = none := by
    rw [matchAlt1_eq_none_iff]
    cases w with
    | nil => intro heq; exact absurd heq (by decide)
    | cons c w' =>
      intro heq
      rw [List.cons_append, List.take_succ_cons] at heq
      have hc : c ∈ fenceJson := by
        rw [← heq]
        exact List.mem_cons_self c _
      have := fenceJson_not_ws c hc
      have hcw := hw c (List.mem_cons_self c w')
      rw [hcw] at this
      exact Bool.noConfusion this
  rw [fsub_alt2 h1 h2, fsub_nil]

/-- Appending an all-whitespace run followed by `` ``` `` to a string that
does not end in whitespace does not change the result of the regex
substitution: the scan removes exactly the appended block. -/
lemma fsub_append_wsTicks :
    ∀ (n : Nat) (v w : List Char), v.length ≤ n →
    (∀ c, v.reverse.head? = some c → isWs c = false) →
    w ≠ [] → (∀ c ∈ w, isWs c = true) →
    fsub (v ++ (w ++ ticks)) = fsub v := by
  intro n
  induction n with
  | zero =>
    intro v w hlen _ _ hw
    have hv0 : v = [] := List.eq_nil_of_length_eq_zero (Nat.le_zero.mp hlen)
    subst hv0
    rw [List.nil_append, fsub_allWs_ticks hw, fsub_nil]
  | succ n ih =>
    intro v w hlen hv hwne hw
    obtain ⟨w₀, w', rfl⟩ : ∃ w₀ w', w = w₀ :: w' := by
      cases w with
      | nil => exact absurd rfl hwne
      | cons a t => exact ⟨a, t, rfl⟩
    have hd : ((w₀ :: w') ++ ticks).head? = some w₀ := rfl
    have hw₀ : isWs w₀ = true := hw w₀ (List.mem_cons_self w₀ w')
    cases hA1 : matchAlt1 v with
    | some r =>
      have hrest := matchAlt1_rest hA1
      rcases eq_or_ne r [] with rfl | hr
      · -- `v` ends exactly with the fence literal and nothing after it
        have h1 := matchAlt1_some_nil_append ((w₀ :: w') ++ ticks) hA1
        rw [dropWhile_allWs_ticks hw] at h1
        rw [fsub_alt1 h1, fsub_ticks, fsub_alt1 hA1, fsub_nil]
      · have h1 := matchAlt1_some_append ((w₀ :: w') ++ ticks) hA1 hr
        rw [fsub_alt1 h1, fsub_alt1 hA1]
        have hsuf : r <:+ v := by
          rw [hrest]
          exact (List.dropWhile_suffix isWs).trans (List.drop_suffix 7 v)
        have hl := matchAlt1_length hA1
        exact ih r (w₀ :: w') (by omega) (endsNonWs_of_suffix hsuf hv) hwne hw
    | none =>
      cases hA2 : matchAlt2 v with
      | some r =>
        have hrest := matchAlt2_rest hA2
        have h2 := matchAlt2_some_append ((w₀ :: w') ++ ticks) hA2
        have h1 := matchAlt1_append_none hA1 hd hw₀
        rw [fsub_alt2 h1 h2, fsub_alt2 hA1 hA2]
        have hsuf : r <:+ v := by
          rw [hrest]
          exact (List.drop_suffix 3 _).trans (List.dropWhile_suffix isWs)
        have hl := matchAlt2_length hA2
        exact ih r (w₀ :: w') (by omega) (endsNonWs_of_suffix hsuf hv) hwne hw
      | none =>
        cases v with
        | nil =>
          rw [List.nil_append, fsub_allWs_ticks hw, fsub_nil]
        | cons c v' =>
          have hdwv : (c :: v').dropWhile isWs ≠ [] :=
            dropWhile_ne_nil_of_endsNonWs (by simp) hv
          have h1 := matchAlt1_append_none hA1 hd hw₀
          have h2 := matchAlt2_none_append hA2 hdwv hd hw₀
          rw [List.cons_append] at h1 h2
          have hgoal : (c :: v') ++ ((w₀ :: w') ++ ticks) =
              c :: (v' ++ ((w₀ :: w') ++ ticks)) := rfl
          rw [hgoal, fsub_cons h1 h2, fsub_cons hA1 hA2]
          have hsuf : v' <:+ c :: v' := List.suffix_cons c v'
          simp only [List.length_cons] at hlen
          rw [ih v' (w₀ :: w') (by omega) (endsNonWs_of_suffix hsuf hv) hwne hw]

/-! ### Assembling the round-trip -/

lemma wsTail_decomp (u : List Char) :
    u = dropTrailingWs u ++ (u.reverse.takeWhile isWs).reverse := by
  conv_lhs => rw [← List.reverse_reverse u,
    ← List.takeWhile_append_dropWhile (p := isWs) (l := u.reverse)]
  rw [List.reverse_append]
  rfl

lemma wsTail_allWs (u : List Char) :
    ∀ c ∈ (u.reverse.takeWhile isWs).reverse, isWs c = true := by
  intro c hc
  rw [List.mem_reverse] at hc
  exact List.mem_takeWhile_imp hc

lemma dropTrailingWs_endsNonWs (u : List Char) :
    ∀ c, (dropTrailingWs u).reverse.head? = some c → isWs c = false := by
  intro c hc
  unfold dropTrailingWs at hc
  rw [List.reverse_reverse] at hc
  exact head?_dropWhile_not isWs u.reverse c hc

lemma stripWs_eq_self {L : List Char} {a b : Char} (h1 : L.head? = some a)
    (ha : isWs a = false) (h2 : L.reverse.head? = some b)
    (hb : isWs b = false) : stripWs L = L := by
  have hdw : L.dropWhile isWs = L := by
    cases L with
    | nil => rfl
    | cons x xs =>
      have hx : x = a := Option.some.inj h1
      subst hx
      rw [List.dropWhile_cons, if_neg (by simp [ha])]
  unfold stripWs
  rw [hdw]
  unfold dropTrailingWs
  have hdwr : L.reverse.dropWhile isWs = L.reverse := by
    cases hr : L.reverse with
    | nil => rfl
    | cons x xs =>
      have hx : x = b := by
        rw [hr] at h2
        exact Option.some.inj h2
      subst hx
      rw [List.dropWhile_cons, if_neg (by simp [hb])]
  rw [hdwr, List.reverse_reverse]

/-- Core of the round-trip: processing the fenced wrapping of `d` equals
processing `d` itself. -/
lemma fsub_wrap_core (d : List Char) :
    stripWs (fsub (fenceJson ++ ('\n' :: (d ++ ('\n' :: ticks))))) =
    stripWs (fsub (stripWs d)) := by
  have hf7 : (7 : Nat) ≤ fenceJson.length := by
    rw [show fenceJson.length = 7 from rfl]
  have h1 : matchAlt1 (fenceJson ++ ('\n' :: (d ++ ('\n' :: ticks)))) =
      some ((d ++ ('\n' :: ticks)).dropWhile isWs) := by
    unfold matchAlt1
    rw [List.take_append_of_le_length hf7, List.drop_append_of_le_length hf7]
    rw [if_pos (by decide)]
    rw [show fenceJson.drop 7 = ([] : List Char) from rfl, List.nil_append,
      List.dropWhile_cons, if_pos (by decide)]
  rw [fsub_alt1 h1]
  rw [List.dropWhile_append]
  by_cases hdE : (d.dropWhile isWs).isEmpty
  · rw [if_pos hdE]
    have hdnil : d.dropWhile isWs = [] := by
      cases hdd : d.dropWhile isWs with
      | nil => rfl
      | cons x xs => rw [hdd] at hdE; exact absurd hdE (by simp)
    have hsd : stripWs d = [] := by
      unfold stripWs
      rw [hdnil]
      rfl
    rw [show ('\n' :: ticks).dropWhile isWs = ticks from rfl, fsub_ticks, hsd]
    rfl
  · rw [if_neg hdE]
    have hdec := wsTail_decomp (d.dropWhile isWs)
    have hshape : d.dropWhile isWs ++ ('\n' :: ticks) =
        dropTrailingWs (d.dropWhile isWs) ++
          ((((d.dropWhile isWs).reverse.takeWhile isWs).reverse ++ ['\n']) ++
            ticks) := by
      conv_lhs => rw [hdec]
      simp [List.append_assoc]
    rw [hshape]
    rw [fsub_append_wsTicks (dropTrailingWs (d.dropWhile isWs)).length _ _
      (le_refl _) (dropTrailingWs_endsNonWs _) (by simp)
      (by
        intro c hc
        rcases List.mem_append.mp hc with h | h
        · exact wsTail_allWs _ c h
        · have hcn : c = '\n' := by simpa using h
          rw [hcn]
          rfl)]
    rfl

/-- The processed wrapped response equals the processed raw response. -/
lemma processResponse_wrap (s : String) :
    processResponse (wrapFence s) = processResponse s := by
  unfold processResponse
  apply congrArg String.mk
  have hdata : (wrapFence s).data =
      ("```json\n".data ++ s.data) ++ "\n```".data := by
    unfold wrapFence
    rw [String.data_append, String.data_append]
  have hstrip : stripWs ((wrapFence s).data) = (wrapFence s).data := by
    apply stripWs_eq_self (a := '\x60') (b := '\x60')
    · rw [hdata]; rfl
    · decide
    · rw [hdata]
      have hsuf : "\n```".data <:+
          ("```json\n".data ++ s.data) ++ "\n```".data :=
        List.suffix_append _ _
      rw [reverse_head?_of_suffix hsuf (by decide)]
      rfl
    · decide
  rw [hstrip, hdata]
  have hshape : ("```json\n".data ++ s.data) ++ "\n```".data =
      fenceJson ++ ('\n' :: (s.data ++ ('\n' :: ticks))) := by
    rw [show "```json\n".data = fenceJson ++ ['\n'] from rfl,
        show "\n```".data = '\n' :: ticks from rfl]
    simp [List.append_assoc]
  rw [hshape]
  exact fsub_wrap_core s.data

/-! ### Association-list and counting facts -/

lemma lookup_append (k : String) (l₁ l₂ : List (String × Json)) :
    List.lookup k (l₁ ++ l₂) = (List.lookup k l₁).or (List.lookup k l₂) := by
  induction l₁ with
  | nil => simp [List.lookup]
  | cons a t ih =>
    rcases a with ⟨k', v'⟩
    rw [List.cons_append]
    simp only [List.lookup]
    cases hk : k == k' <;> simp [ih]

lemma statusIs_unique {r : PyDict} {s₁ s₂ : String}
    (h1 : statusIs r s₁ = true) (h2 : statusIs r s₂ = true) : s₁ = s₂ := by
  unfold statusIs at h1 h2
  cases hl : List.lookup "status" r with
  | none =>
    rw [hl] at h1
    exact Bool.noConfusion h1
  | some v =>
    rw [hl] at h1 h2
    rcases v with _ | b | n | tt | xs | fs
    · exact Bool.noConfusion h1
    · exact Bool.noConfusion h1
    · exact Bool.noConfusion h1
    · have e1 : tt = s₁ := by simpa using h1
      have e2 : tt = s₂ := by simpa using h2
      rw [← e1, ← e2]
    · exact Bool.noConfusion h1
    · exact Bool.noConfusion h1

lemma statusIs_false_of_ne {r : PyDict} {s₁ s₂ : String} (hne : s₁ ≠ s₂)
    (h1 : statusIs r s₁ = true) : statusIs r s₂ = false := by
  cases hb : statusIs r s₂ with
  | false => rfl
  | true => exact absurd (statusIs_unique h1 hb) hne

lemma statusCount_tri (rs : List PyDict) :
    statusCount rs "verified" + statusCount rs "inaccurate" +
      statusCount rs "false" =
      rs.countP (fun r => statusIs r "verified" || statusIs r "inaccurate" ||
        statusIs r "false") := by
  induction rs with
  | nil => rfl
  | cons r t ih =>
    unfold statusCount at ih ⊢
    rw [List.countP_cons, List.countP_cons, List.countP_cons, List.countP_cons]
    by_cases h1 : statusIs r "verified" = true
    · have h2 := statusIs_false_of_ne (show ("verified" : String) ≠ "inaccurate" by decide) h1
      have h3 := statusIs_false_of_ne (show ("verified" : String) ≠ "false" by decide) h1
      simp only [h1, h2, h3]
      simp
      omega
    · have h1' : statusIs r "verified" = false := by
        revert h1
        cases statusIs r "verified" <;> simp
      by_cases h2 : statusIs r "inaccurate" = true
      · have h3 := statusIs_false_of_ne (show ("inaccurate" : String) ≠ "false" by decide) h2
        simp only [h1', h2, h3]
        simp
        omega
      · have h2' : statusIs r "inaccurate" = false := by
          revert h2
          cases statusIs r "inaccurate" <;> simp
        by_cases h3 : statusIs r "false" = true
        · simp only [h1', h2', h3]
          simp
          omega
        · have h3' : statusIs r "false" = false := by
            revert h3
            cases statusIs r "false" <;> simp
          simp only [h1', h2', h3']
          simp
          omega

-- ======================================================================
-- Claim theorems
-- ======================================================================

/-- C1 (counterexample): the claim that no provider fault propagates as
an unhandled exception out of `extract_claims` is false: a rate-limit
fault of the single completion call escapes as a raised exception (the
`Except.error` value), rather than being retried or converted to a
failure sentinel. -/
theorem extract_claims_fault_propagates_cex :
    extract_claims "d" (fun _ => CompletionOutcome.fault ProviderFault.rateLimited) =
      Except.error (PyError.provider ProviderFault.rateLimited) ∧
    (extract_claims "d"
      (fun _ => CompletionOutcome.fault ProviderFault.rateLimited)).isOk = false :=
  ⟨rfl, rfl⟩

/-- C1 (amended): each completion invocation is a single attempt with no
retry and no backoff; a rate-limited, transient or fatal provider fault
raises out of `extract_claims` and `verify_claim` uncaught, while a JSON
parse failure of a successful response is handled — extraction returns an
empty list and verification returns the fixed error verdict. -/
theorem completion_single_attempt_no_retry (text : String) (c ev : Json)
    (f : ProviderFault) :
    extract_claims text (fun _ => CompletionOutcome.fault f) =
      Except.error (PyError.provider f) ∧
    ((mkVerifyPrompt c ev).isOk = true →
      verify_claim c ev (fun _ => CompletionOutcome.fault f) =
        Except.error (PyError.provider f)) ∧
    (∀ t, parseJson (processResponse t) = none →
      extract_claims text (fun _ => CompletionOutcome.success t) =
        Except.ok (Json.arr [])) ∧
    (∀ t, parseJson (processResponse t) = none →
      (mkVerifyPrompt c ev).isOk = true →
      verify_claim c ev (fun _ => CompletionOutcome.success t) =
        Except.ok errorVerdict) := by
  refine ⟨rfl, ?_, ?_, ?_⟩
  · intro h
    cases hm : mkVerifyPrompt c ev with
    | error e => rw [hm] at h; exact Bool.noConfusion h
    | ok pr => simp only [verify_claim, hm]
  · intro t hp
    simp only [extract_claims, hp]
  · intro t hp h
    cases hm : mkVerifyPrompt c ev with
    | error e => rw [hm] at h; exact Bool.noConfusion h
    | ok pr => simp only [verify_claim, hm, hp]

/-- C1 (witness): the amended theorem applied to a concrete document, a
concrete claim with empty evidence, and the rate-limited fault. -/
theorem completion_single_attempt_no_retry_witness :
    extract_claims "d" (fun _ => CompletionOutcome.fault ProviderFault.rateLimited) =
      Except.error (PyError.provider ProviderFault.rateLimited) ∧
    verify_claim jClaim (Json.arr [])
      (fun _ => CompletionOutcome.fault ProviderFault.rateLimited) =
      Except.error (PyError.provider ProviderFault.rateLimited) :=
  ⟨(completion_single_attempt_no_retry "d" jClaim (Json.arr [])
      ProviderFault.rateLimited).1,
   (completion_single_attempt_no_retry "d" jClaim (Json.arr [])
      ProviderFault.rateLimited).2.1 rfl⟩

/-- C2 (counterexample): with the same claim and empty evidence, two runs
of `verify_claim` whose provider responses differ return different
verdicts — there is no fixed empty-evidence policy verdict and the
completion provider is consulted. -/
theorem verify_empty_evidence_determinism_cex :
    verify_claim jClaim (Json.arr [])
      (fun _ => CompletionOutcome.success
        "\x7b\"status\": \"verified\", \"explanation\": \"ok\", \"confidence\": \"high\", \"sources\": []\x7d") ≠
    verify_claim jClaim (Json.arr [])
      (fun _ => CompletionOutcome.success
        "\x7b\"status\": \"false\", \"explanation\": \"no\", \"confidence\": \"high\", \"sources\": []\x7d") := by
  intro h
  have h1 : statusOf (verify_claim jClaim (Json.arr [])
      (fun _ => CompletionOutcome.success
        "\x7b\"status\": \"verified\", \"explanation\": \"ok\", \"confidence\": \"high\", \"sources\": []\x7d")) =
      some "verified" := rfl
  rw [h] at h1
  have h2 : statusOf (verify_claim jClaim (Json.arr [])
      (fun _ => CompletionOutcome.success
        "\x7b\"status\": \"false\", \"explanation\": \"no\", \"confidence\": \"high\", \"sources\": []\x7d")) =
      some "false" := rfl
  rw [h2] at h1
  exact absurd h1 (by decide)

/-- C2 (amended): `verify_claim` has no empty-evidence short-circuit —
the completion provider is always consulted, and the verdict is computed
from the provider response alone: whenever the provider responses agree,
the verdicts agree, with empty or with nonempty evidence.  Determinism
thus holds only relative to a fixed provider response (the converse is
not claimed: distinct unparseable responses share the error verdict). -/
theorem verify_verdict_from_provider_only (c ev₁ ev₂ : Json)
    (p₁ p₂ : String → CompletionOutcome)
    (h1 : (mkVerifyPrompt c ev₁).isOk = true)
    (h2 : (mkVerifyPrompt c ev₂).isOk = true)
    (hag : ∀ pr₁ pr₂, mkVerifyPrompt c ev₁ = Except.ok pr₁ →
      mkVerifyPrompt c ev₂ = Except.ok pr₂ → p₁ pr₁ = p₂ pr₂) :
    verify_claim c ev₁ p₁ = verify_claim c ev₂ p₂ := by
  cases hm₁ : mkVerifyPrompt c ev₁ with
  | error e => rw [hm₁] at h1; exact Bool.noConfusion h1
  | ok pr₁ =>
    cases hm₂ : mkVerifyPrompt c ev₂ with
    | error e => rw [hm₂] at h2; exact Bool.noConfusion h2
    | ok pr₂ =>
      have heq := hag pr₁ pr₂ hm₁ hm₂
      simp only [verify_claim, hm₁, hm₂, heq]

/-- C2 (witness): the amended theorem at a concrete claim, with empty
versus nonempty evidence and the same provider response. -/
theorem verify_verdict_from_provider_only_witness :
    verify_claim jClaim (Json.arr [])
      (fun _ => CompletionOutcome.success
        "\x7b\"status\": \"verified\", \"confidence\": \"high\"\x7d") =
    verify_claim jClaim evList
      (fun _ => CompletionOutcome.success
        "\x7b\"status\": \"verified\", \"confidence\": \"high\"\x7d") :=
  verify_verdict_from_provider_only jClaim (Json.arr []) evList _ _ rfl rfl
    (fun _ _ _ _ => rfl)

/-- C3 (counterexample): a well-formed JSON-array response containing an
entry whose claim text is empty (below any positive minimum-length
threshold) is returned by `extract_claims` unchanged rather than
filtered: the result is the one-entry array, not the empty array the
claimed post-parse filter would produce. -/
theorem extract_no_filter_cex :
    extract_claims "doc" (fun _ => CompletionOutcome.success
      "[\x7b\"claim\": \"\", \"type\": \"statistic\", \"context\": \"c\"\x7d]") =
      Except.ok (Json.arr [Json.obj [("claim", Json.str ""),
        ("type", Json.str "statistic"), ("context", Json.str "c")]]) ∧
    extract_claims "doc" (fun _ => CompletionOutcome.success
      "[\x7b\"claim\": \"\", \"type\": \"statistic\", \"context\": \"c\"\x7d]") ≠
      Except.ok (Json.arr []) := by
  refine ⟨rfl, ?_⟩
  intro h
  have h1 : arrLenOf (extract_claims "doc" (fun _ => CompletionOutcome.success
      "[\x7b\"claim\": \"\", \"type\": \"statistic\", \"context\": \"c\"\x7d]")) =
      some 1 := rfl
  rw [h] at h1
  exact absurd h1 (by decide)

/-- C3 (amended): `extract_claims` applies no post-parse filter at all:
whatever JSON value the (fence-stripped) response parses to is returned
verbatim, in order, regardless of text lengths or missing fields. -/
theorem extract_returns_parsed_verbatim (text : String)
    (p : String → CompletionOutcome) (t : String) (j : Json)
    (hp : p (extractPrompt text) = CompletionOutcome.success t)
    (hj : parseJson (processResponse t) = some j) :
    extract_claims text p = Except.ok j := by
  simp only [extract_claims, hp, hj]

/-- C3 (witness): the amended theorem at a concrete empty-array response. -/
theorem extract_returns_parsed_verbatim_witness :
    extract_claims "d" (fun _ => CompletionOutcome.success "[]") =
      Except.ok (Json.arr []) :=
  extract_returns_parsed_verbatim "d" _ "[]" (Json.arr []) rfl rfl

/-- C4 (counterexample): a successfully parsed verdict whose status lies
outside the four recognized members is returned unchanged — here the
status `maybe` comes back as `maybe`, not coerced to the safe default
`false`. -/
theorem verify_status_coercion_cex :
    statusOf (verify_claim jClaim (Json.arr [])
      (fun _ => CompletionOutcome.success
        "\x7b\"status\": \"maybe\", \"explanation\": \"e\", \"confidence\": \"high\", \"sources\": []\x7d")) =
      some "maybe" ∧
    ¬ (statusOf (verify_claim jClaim (Json.arr [])
        (fun _ => CompletionOutcome.success
          "\x7b\"status\": \"maybe\", \"explanation\": \"e\", \"confidence\": \"high\", \"sources\": []\x7d")) =
        some "verified" ∨
      statusOf (verify_claim jClaim (Json.arr [])
        (fun _ => CompletionOutcome.success
          "\x7b\"status\": \"maybe\", \"explanation\": \"e\", \"confidence\": \"high\", \"sources\": []\x7d")) =
        some "inaccurate" ∨
      statusOf (verify_claim jClaim (Json.arr [])
        (fun _ => CompletionOutcome.success
          "\x7b\"status\": \"maybe\", \"explanation\": \"e\", \"confidence\": \"high\", \"sources\": []\x7d")) =
        some "false" ∨
      statusOf (verify_claim jClaim (Json.arr [])
        (fun _ => CompletionOutcome.success
          "\x7b\"status\": \"maybe\", \"explanation\": \"e\", \"confidence\": \"high\", \"sources\": []\x7d")) =
        some "error") := by
  constructor
  · rfl
  · intro h
    rcases h with h | h | h | h <;>
      (rw [show statusOf (verify_claim jClaim (Json.arr [])
        (fun _ => CompletionOutcome.success
          "\x7b\"status\": \"maybe\", \"explanation\": \"e\", \"confidence\": \"high\", \"sources\": []\x7d")) =
          some "maybe" from rfl] at h
       exact absurd h (by decide))

/-- C4 (amended): `verify_claim` performs no status coercion: for every
successfully parsed object response, the returned verdict carries exactly
the parsed `status` field, whatever its value; only a parse failure
produces the `error` status. -/
theorem verify_status_returned_unchanged (c ev : Json)
    (p : String → CompletionOutcome) (t : String) (fs : List (String × Json))
    (h1 : (mkVerifyPrompt c ev).isOk = true)
    (h2 : ∀ pr, mkVerifyPrompt c ev = Except.ok pr →
      p pr = CompletionOutcome.success t)
    (h3 : parseJson (processResponse t) = some (Json.obj fs)) :
    ∃ fs', verify_claim c ev p = Except.ok (Json.obj fs') ∧
      List.lookup "status" fs' = List.lookup "status" fs := by
  cases hm : mkVerifyPrompt c ev with
  | error e => rw [hm] at h1; exact Bool.noConfusion h1
  | ok pr =>
    have hp := h2 pr hm
    simp only [verify_claim, hm, hp, h3]
    cases hconf : List.lookup "confidence" fs with
    | some v =>
      refine ⟨fs, ?_, rfl⟩
      simp only [confidencePost, hconf]
    | none =>
      refine ⟨fs ++ [("confidence", Json.str "medium")], ?_, ?_⟩
      · simp only [confidencePost, hconf]
      · rw [lookup_append]
        cases hs : List.lookup "status" fs <;> simp

/-- C4 (witness): the amended theorem at a concrete response whose status
is the unrecognized value `s`. -/
theorem verify_status_returned_unchanged_witness :
    ∃ fs', verify_claim jClaim (Json.arr [])
        (fun _ => CompletionOutcome.success "\x7b\"status\": \"s\"\x7d") =
        Except.ok (Json.obj fs') ∧
      List.lookup "status" fs' =
        List.lookup "status" [("status", Json.str "s")] :=
  verify_status_returned_unchanged jClaim (Json.arr []) _ "\x7b\"status\": \"s\"\x7d"
    [("status", Json.str "s")] rfl (fun _ _ => rfl) rfl

/-- C5 (counterexample): a verification response that parses but lacks a
`sources` field yields a verdict with no `sources` at all — it is not
defaulted to the URLs of the evidence supplied to the prompt. -/
theorem verify_sources_default_cex :
    sourcesOf (verify_claim jClaim evList
      (fun _ => CompletionOutcome.success
        "\x7b\"status\": \"verified\", \"explanation\": \"e\", \"confidence\": \"high\"\x7d")) =
      none ∧
    ¬ (sourcesOf (verify_claim jClaim evList
        (fun _ => CompletionOutcome.success
          "\x7b\"status\": \"verified\", \"explanation\": \"e\", \"confidence\": \"high\"\x7d")) =
        some (Json.arr [Json.str "https://example.com/a"])) := by
  refine ⟨rfl, ?_⟩
  intro h
  rw [show sourcesOf (verify_claim jClaim evList
      (fun _ => CompletionOutcome.success
        "\x7b\"status\": \"verified\", \"explanation\": \"e\", \"confidence\": \"high\"\x7d")) =
      none from rfl] at h
  exact Option.noConfusion h

/-- C5 (amended): a parsed response missing `confidence` is defaulted to
`medium` (this half of the claim holds), but a missing `sources` field is
left absent: the returned verdict's `sources` equals whatever the parsed
response contained, never the evidence URLs. -/
theorem verify_confidence_default_sources_untouched (c ev : Json)
    (p : String → CompletionOutcome) (t : String) (fs : List (String × Json))
    (h1 : (mkVerifyPrompt c ev).isOk = true)
    (h2 : ∀ pr, mkVerifyPrompt c ev = Except.ok pr →
      p pr = CompletionOutcome.success t)
    (h3 : parseJson (processResponse t) = some (Json.obj fs))
    (h4 : List.lookup "confidence" fs = none) :
    ∃ fs', verify_claim c ev p = Except.ok (Json.obj fs') ∧
      List.lookup "confidence" fs' = some (Json.str "medium") ∧
      List.lookup "sources" fs' = List.lookup "sources" fs := by
  cases hm : mkVerifyPrompt c ev with
  | error e => rw [hm] at h1; exact Bool.noConfusion h1
  | ok pr =>
    have hp := h2 pr hm
    simp only [verify_claim, hm, hp, h3]
    refine ⟨fs ++ [("confidence", Json.str "medium")], ?_, ?_, ?_⟩
    · simp only [confidencePost, h4]
    · rw [lookup_append, h4]
      rfl
    · rw [lookup_append]
      cases hs : List.lookup "sources" fs <;> simp

/-- C5 (witness): the amended theorem at a concrete response carrying
only a status. -/
theorem verify_confidence_default_sources_untouched_witness :
    ∃ fs', verify_claim jClaim evList
        (fun _ => CompletionOutcome.success "\x7b\"status\": \"verified\"\x7d") =
        Except.ok (Json.obj fs') ∧
      List.lookup "confidence" fs' = some (Json.str "medium") ∧
      List.lookup "sources" fs' =
        List.lookup "sources" [("status", Json.str "verified")] :=
  verify_confidence_default_sources_untouched jClaim evList _
    "\x7b\"status\": \"verified\"\x7d" [("status", Json.str "verified")]
    rfl (fun _ _ => rfl) rfl rfl

/-- C6: wrapping a raw completion response in code-fence markers does not
change the outcome: the shared strip-and-`re.sub` step maps the wrapped
and unwrapped responses to the same string, so `extract_claims` and
`verify_claim` parse them identically (round-trip). -/
theorem fence_roundtrip (s doc : String) (c ev : Json) :
    processResponse (wrapFence s) = processResponse s ∧
    extract_claims doc (fun _ => CompletionOutcome.success (wrapFence s)) =
      extract_claims doc (fun _ => CompletionOutcome.success s) ∧
    verify_claim c ev (fun _ => CompletionOutcome.success (wrapFence s)) =
      verify_claim c ev (fun _ => CompletionOutcome.success s) := by
  have hmain := processResponse_wrap s
  refine ⟨hmain, ?_, ?_⟩
  · simp only [extract_claims, hmain]
  · simp only [verify_claim, hmain]

/-- C7: for every nonempty result sequence the summary computes
`accuracy = verified / total * 100`, and the assessment tier is
characterized exactly by the thresholds: `< 20` critical, `< 50` multiple
issues, `< 80` some issues, else good. -/
theorem summary_accuracy_bands (results : List PyDict) (h : results ≠ []) :
    accuracy_rate results =
      (statusCount results "verified" : Rat) / (results.length : Rat) * 100 ∧
    (assessment results = Assessment.critical ↔ accuracy_rate results < 20) ∧
    (assessment results = Assessment.multipleIssues ↔
      20 ≤ accuracy_rate results ∧ accuracy_rate results < 50) ∧
    (assessment results = Assessment.someIssues ↔
      50 ≤ accuracy_rate results ∧ accuracy_rate results < 80) ∧
    (assessment results = Assessment.good ↔ 80 ≤ accuracy_rate results) := by
  have hpos : 0 < results.length := List.length_pos.mpr h
  refine ⟨by unfold accuracy_rate; rw [if_pos hpos], ?_, ?_, ?_, ?_⟩ <;>
    (unfold assessment
     split_ifs with h1 h2 h3 <;>
       constructor <;> intro hx <;>
         first
           | rfl
           | exact h1
           | exact absurd hx (by decide)
           | exact absurd hx h1
           | exact ⟨le_of_not_lt h1, h2⟩
           | exact ⟨le_of_not_lt h2, h3⟩
           | exact le_of_not_lt h3
           | exact absurd hx.2 h2
           | exact absurd hx.2 h3
           | (exfalso; rcases hx with ⟨ha, hb⟩; linarith)
           | (exfalso; linarith))

/-- C7 (witness): over the result statuses
`[verified, verified, inaccurate, false]` the accuracy is 50% and the
assessment is the some-issues tier, via the theorem's characterization. -/
theorem summary_accuracy_bands_witness :
    accuracy_rate [[("status", Json.str "verified")],
      [("status", Json.str "verified")], [("status", Json.str "inaccurate")],
      [("status", Json.str "false")]] = 50 ∧
    assessment [[("status", Json.str "verified")],
      [("status", Json.str "verified")], [("status", Json.str "inaccurate")],
      [("status", Json.str "false")]] = Assessment.someIssues := by
  have hcount : statusCount [[("status", Json.str "verified")],
      [("status", Json.str "verified")], [("status", Json.str "inaccurate")],
      [("status", Json.str "false")]] "verified" = 2 := rfl
  have ha : accuracy_rate [[("status", Json.str "verified")],
      [("status", Json.str "verified")], [("status", Json.str "inaccurate")],
      [("status", Json.str "false")]] = 50 := by
    unfold accuracy_rate
    rw [hcount]
    norm_num
  refine ⟨ha, ?_⟩
  exact ((summary_accuracy_bands _ (by simp)).2.2.2.1).mpr
    ⟨by rw [ha], by rw [ha]; norm_num⟩

/-- C8: on a search-provider failure, `search_claim` returns the empty
list without raising, and it consults the provider exactly once, with the
single query built from the claim text and context: two providers that
agree on that one query yield identical results (no retry). -/
theorem search_failure_soft_single_attempt (claim_text context : Json)
    (tavily tavily' : String → SearchOutcome) (e : String) :
    (tavily (pyFormat claim_text ++ " " ++ pyFormat context) =
        SearchOutcome.err e →
      search_claim claim_text context tavily = Json.arr []) ∧
    (tavily (pyFormat claim_text ++ " " ++ pyFormat context) =
        tavily' (pyFormat claim_text ++ " " ++ pyFormat context) →
      search_claim claim_text context tavily =
        search_claim claim_text context tavily') := by
  constructor
  · intro h
    simp only [search_claim, h]
  · intro h
    simp only [search_claim, h]

/-- C8 (witness): the theorem applied to a concrete failing provider. -/
theorem search_failure_soft_single_attempt_witness :
    search_claim (Json.str "c") (Json.str "x")
      (fun _ => SearchOutcome.err "boom") = Json.arr [] :=
  (search_failure_soft_single_attempt (Json.str "c") (Json.str "x")
    (fun _ => SearchOutcome.err "boom") (fun _ => SearchOutcome.err "boom")
    "boom").1 rfl

/-- C9: a result whose status is outside the three displayed statuses
(such as the parser's `error` verdict) is counted in the total (and in
the accuracy denominator, which is the total) but in none of the three
status counters, so the three counters sum to strictly less than the
total. -/
theorem error_status_in_total_not_counted (results : List PyDict) (r : PyDict)
    (hmem : r ∈ results) (hv : statusIs r "verified" = false)
    (hi : statusIs r "inaccurate" = false) (hf : statusIs r "false" = false) :
    statusCount results "verified" + statusCount results "inaccurate" +
      statusCount results "false" < totalClaims results ∧
    accuracy_rate results =
      (statusCount results "verified" : Rat) / (totalClaims results : Rat) *
        100 := by
  have hpos : 0 < results.length :=
    List.length_pos.mpr (List.ne_nil_of_mem hmem)
  constructor
  · rw [statusCount_tri]
    unfold totalClaims
    apply Nat.lt_of_le_of_ne (List.countP_le_length _)
    intro heq
    have hall := List.countP_eq_length.mp heq r hmem
    simp [hv, hi, hf] at hall
  · unfold accuracy_rate totalClaims
    rw [if_pos hpos]

/-- C9 (witness): a single `error`-status result is in the total but in
none of the three counters. -/
theorem error_status_in_total_not_counted_witness :
    statusCount [[("status", Json.str "error")]] "verified" +
      statusCount [[("status", Json.str "error")]] "inaccurate" +
      statusCount [[("status", Json.str "error")]] "false" <
      totalClaims [[("status", Json.str "error")]] ∧
    accuracy_rate [[("status", Json.str "error")]] =
      (statusCount [[("status", Json.str "error")]] "verified" : Rat) /
        (totalClaims [[("status", Json.str "error")]] : Rat) * 100 :=
  error_status_in_total_not_counted [[("status", Json.str "error")]]
    [("status", Json.str "error")] (by simp) rfl rfl rfl

/-- C10: when claim extraction yields the empty claim list,
`process_single_pdf` returns `(None, None)` having made no search call
and no verification call. -/
theorem empty_claims_no_pipeline (text : String)
    (client : String → CompletionOutcome) (tavily : String → SearchOutcome)
    (h : extract_claims text client = Except.ok (Json.arr [])) :
    process_single_pdf text client tavily =
      Except.ok ((none, none), 0, 0) := by
  simp only [process_single_pdf, h]
  rfl

/-- C10 (witness): the theorem at a provider answering with an empty
JSON array. -/
theorem empty_claims_no_pipeline_witness :
    process_single_pdf "doc" (fun _ => CompletionOutcome.success "[]")
      (fun _ => SearchOutcome.err "x") = Except.ok ((none, none), 0, 0) :=
  empty_claims_no_pipeline "doc" _ _ rfl

end FCApp
